import Mathlib

/-!
Verification of the match-statistics aggregation pipeline of the
premier-league-dashboard repository (src/src/App.tsx).

The pipeline is embedded shallowly: every JavaScript number that the
aggregation arithmetic touches is modelled as an exact rational (ℚ) or an
integer; a JavaScript number that can be non-finite (NaN or ±Infinity, as in
the percentage computation of `matchOutcomes`, where a division by zero can
occur) is modelled as `Option ℚ` with `none` standing for the non-finite
values.  JavaScript's stable `Array.prototype.sort` with a numeric-key
comparator is modelled by `List.insertionSort`, which is stable and produces
the same output as any stable sort for a total preorder comparator.
`Map` objects (insertion-ordered, with update-in-place keeping the original
position of a key) are modelled as association lists with an update-or-append
operation.
-/

/-- Whitespace characters skipped by JavaScript parseInt before reading the
number (the common ASCII subset of StrWhiteSpace). -/
def jsIsSpace (c : Char) : Bool :=
  c = ' ' || c = '\t' || c = '\n' || c = '\r'

/-- Value of a list of decimal digit characters, most significant first. -/
def digitsVal (cs : List Char) : Nat :=
  cs.foldl (fun n c => 10 * n + (c.toNat - 48)) 0

/-- Reading of the maximal decimal-digit prefix after the optional sign, as
JavaScript parseInt(·, 10) does; an empty digit prefix is NaN (`none`). -/
def jsParseIntCore (cs : List Char) (sign : Int) : Option Int :=
  let ds := cs.takeWhile Char.isDigit
  if ds = [] then none else some (sign * (digitsVal ds : Int))

/-- Model of JavaScript parseInt on a character list: skip leading
whitespace, read an optional sign and then the longest digit prefix;
trailing characters are ignored; no digits at all gives NaN, modelled as
`none`. -/
def jsParseIntChars (cs : List Char) : Option Int :=
  match cs.dropWhile jsIsSpace with
  | '-' :: rest => jsParseIntCore rest (-1)
  | '+' :: rest => jsParseIntCore rest 1
  | rest => jsParseIntCore rest 1

/-- Model of JavaScript parseInt(s, 10) on a string. -/
def jsParseInt (s : String) : Option Int :=
  jsParseIntChars s.data

/-- Model of JavaScript String.prototype.split with a one-character
separator: the list of (possibly empty) segments between occurrences of the
separator.  The result is always non-empty, as in JavaScript, where
splitting the empty string gives one empty segment. -/
def splitOnChar (sep : Char) : List Char → List (List Char)
  | [] => [[]]
  | c :: rest =>
    match splitOnChar sep rest with
    | [] => [[]]
    | seg :: segs => if c = sep then [] :: seg :: segs else (c :: seg) :: segs

/-- Model of the JavaScript idiom `x || 0`, which replaces NaN (and 0) by 0:
a missing or non-numeric value becomes 0, a number is kept. -/
def jsOrZero (o : Option Int) : Int :=
  o.getD 0

/-- Result record of `parseScore` (App.tsx line 78): the two parsed sides of
a score string. -/
structure ParsedScore where
  homeGoals : Int
  awayGoals : Int
  deriving DecidableEq, Repr

/-- Embedding of `parseScore` (App.tsx lines 78-84): split the score string
on the en-dash, parse each side with parseInt, and default each side to 0
via `|| 0`.  A missing second segment is `parts[1] = undefined` in
JavaScript, for which parseInt returns NaN; both are `none` here. -/
def parseScore (score : String) : ParsedScore :=
  let parts := splitOnChar '–' score.data
  { homeGoals := jsOrZero (parts[0]?.bind jsParseIntChars)
    awayGoals := jsOrZero (parts[1]?.bind jsParseIntChars) }

/-- Embedding of the `MatchData` interface (App.tsx lines 43-56).  Numeric
fields are exact: `Wk` a natural number, the expected-goals fields
rationals. -/
structure MatchData where
  Wk : Nat
  Day : String
  Date : String
  Time : String
  Home : String
  xG : ℚ
  Score : String
  xG_away : ℚ
  Away : String
  Attendance : String
  Venue : String
  Referee : String
  deriving DecidableEq, Repr

/-- Per-team accumulator of the `teamGoals` aggregation (App.tsx line 114):
goals scored by the team and matches played, across both roles. -/
structure TeamStat where
  goals : Int
  matchCount : Nat
  deriving DecidableEq, Repr

/-- Update-or-append on the association list modelling the insertion-ordered
JavaScript Map: an existing key keeps its position and accumulates `g` goals
and one match; a new key is appended with one match. -/
def updateStat (m : List (String × TeamStat)) (team : String) (g : Int) :
    List (String × TeamStat) :=
  match m with
  | [] => [(team, ⟨g, 1⟩)]
  | (t, s) :: rest =>
    if t = team then (t, ⟨s.goals + g, s.matchCount + 1⟩) :: rest
    else (t, s) :: updateStat rest team g

/-- One step of the `data.forEach` loop of `teamGoals` (App.tsx lines
116-130): credit the parsed home goals to the home team, then the parsed
away goals to the away team. -/
def statsStep (acc : List (String × TeamStat)) (m : MatchData) :
    List (String × TeamStat) :=
  let p := parseScore m.Score
  updateStat (updateStat acc m.Home p.homeGoals) m.Away p.awayGoals

/-- Accumulated `statsByTeam` map of `teamGoals` (App.tsx lines 114-130),
in insertion (first-encounter) order. -/
def statsByTeam (data : List MatchData) : List (String × TeamStat) :=
  data.foldl statsStep []

/-- Output record of `teamGoals` (App.tsx lines 135-138). -/
structure TeamGoalRate where
  team : String
  goalsPerMatch : ℚ
  deriving DecidableEq, Repr

/-- Projection of a stats entry to the chart record (App.tsx lines 135-138). -/
def toRate (e : String × TeamStat) : TeamGoalRate :=
  { team := e.1, goalsPerMatch := (e.2.goals : ℚ) / (e.2.matchCount : ℚ) }

/-- Order used by the descending sort of `teamGoals` (App.tsx line 139):
the comparator `(a, b) => b.goalsPerMatch - a.goalsPerMatch` lets `a`
precede `b` exactly when `b.goalsPerMatch ≤ a.goalsPerMatch`. -/
def gpmOrder (a b : TeamGoalRate) : Prop :=
  b.goalsPerMatch ≤ a.goalsPerMatch

instance : DecidableRel gpmOrder := fun a b =>
  inferInstanceAs (Decidable (b.goalsPerMatch ≤ a.goalsPerMatch))

instance : IsTotal TeamGoalRate gpmOrder :=
  ⟨fun a b => le_total b.goalsPerMatch a.goalsPerMatch⟩

instance : IsTrans TeamGoalRate gpmOrder :=
  ⟨fun _ _ _ h h' => le_trans h' h⟩

/-- Embedding of `teamGoals` (App.tsx lines 113-140): accumulate the stats
map, keep the entries with at least one match, project to goals-per-match
records and stably sort them in descending rate order. -/
def teamGoals (data : List MatchData) : List TeamGoalRate :=
  (((statsByTeam data).filter (fun e => 0 < e.2.matchCount)).map toRate).insertionSort gpmOrder

/-- One step of the outcome tally loop of `matchOutcomes` (App.tsx lines
201-211): the triple is (homeWins, awayWins, draws). -/
def tallyOutcome (acc : Nat × Nat × Nat) (m : MatchData) : Nat × Nat × Nat :=
  let p := parseScore m.Score
  if p.homeGoals > p.awayGoals then (acc.1 + 1, acc.2.1, acc.2.2)
  else if p.homeGoals < p.awayGoals then (acc.1, acc.2.1 + 1, acc.2.2)
  else (acc.1, acc.2.1, acc.2.2 + 1)

/-- Tallies (homeWins, awayWins, draws) of `matchOutcomes` (App.tsx lines
197-211). -/
def outcomeCounts (data : List MatchData) : Nat × Nat × Nat :=
  data.foldl tallyOutcome (0, 0, 0)

/-- Output record of `matchOutcomes` (App.tsx lines 215-225).  A percentage
is a JavaScript number that is NaN when `total = 0` (the code divides by
`total` with no guard), so it is modelled as `Option ℚ` with `none` for the
non-finite case. -/
structure OutcomeSummary where
  labels : List String
  values : List Nat
  percentages : List (Option ℚ)
  counts : List Nat
  total : Nat
  deriving DecidableEq, Repr

/-- Model of the JavaScript expression `(count / total) * 100` on numbers:
a finite rational unless `total = 0`, in which case the division yields
NaN (count = 0) or Infinity, both non-finite, modelled as `none`. -/
def jsPercent (count total : Nat) : Option ℚ :=
  if total = 0 then none else some ((count : ℚ) / (total : ℚ) * 100)

/-- Embedding of `matchOutcomes` (App.tsx lines 196-226). -/
def matchOutcomes (data : List MatchData) : OutcomeSummary :=
  let c := outcomeCounts data
  let total := c.1 + c.2.1 + c.2.2
  { labels := ["Home Wins", "Away Wins", "Draws"]
    values := [c.1, c.2.1, c.2.2]
    percentages := [jsPercent c.1 total, jsPercent c.2.1 total, jsPercent c.2.2 total]
    counts := [c.1, c.2.1, c.2.2]
    total := total }

/-- Encoding of `new Date(s).getTime()` for the ISO YYYY-MM-DD date strings
used by the dataset: a numeric key that is strictly monotone in the calendar
date; a string not of that shape parses to NaN in JavaScript and is `none`
here.  (The data model of the spec, §3, guarantees parseable dates; the
sort-order theorems are read through this key.) -/
def dateNum (s : String) : Option Nat :=
  match splitOnChar '-' s.data with
  | [y, m, d] =>
    if y.length = 4 && m.length = 2 && d.length = 2
        && (y ++ m ++ d).all Char.isDigit then
      some (digitsVal y * 10000 + digitsVal m * 100 + digitsVal d)
    else none
  | _ => none

/-- Total numeric sort key for a date string: unparseable dates fall back
to 0 (in JavaScript their NaN comparisons make the comparator report a tie,
leaving their position unspecified; the dataset contract excludes them). -/
def dateKey (s : String) : Nat :=
  (dateNum s).getD 0

/-- Output record of `timeseriesData` (App.tsx lines 172-190).  The source
object's `match` field (a label string) is named `matchLabel` here because
`match` is a reserved word in Lean. -/
structure XgPoint where
  date : String
  xG : ℚ
  xGA : ℚ
  team : String
  matchLabel : String
  opponent : String
  deriving DecidableEq, Repr

/-- Embedding of the per-match mapping inside `timeseriesData` (App.tsx
lines 165-191): with a selected team that played the match, reorient the
expected-goals pair to that team's viewpoint; otherwise default to the home
side's viewpoint. -/
def xgPoint (selectedTeam : String) (d : MatchData) : XgPoint :=
  let isHome := d.Home = selectedTeam
  let isAway := d.Away = selectedTeam
  if selectedTeam ≠ "" ∧ (isHome ∨ isAway) then
    { date := d.Date
      xG := if isHome then d.xG else d.xG_away
      xGA := if isHome then d.xG_away else d.xG
      team := selectedTeam
      matchLabel := d.Home ++ " vs " ++ d.Away
      opponent := if isHome then d.Away else d.Home }
  else
    { date := d.Date
      xG := d.xG
      xGA := d.xG_away
      team := d.Home
      matchLabel := d.Home ++ " vs " ++ d.Away
      opponent := d.Away }

/-- Chronological order on emitted xG points, as compared by the sort
comparator of App.tsx line 192. -/
def xgOrder (a b : XgPoint) : Prop :=
  dateKey a.date ≤ dateKey b.date

instance : DecidableRel xgOrder := fun a b =>
  inferInstanceAs (Decidable (dateKey a.date ≤ dateKey b.date))

instance : IsTotal XgPoint xgOrder :=
  ⟨fun a b => Nat.le_total (dateKey a.date) (dateKey b.date)⟩

instance : IsTrans XgPoint xgOrder :=
  ⟨fun _ _ _ h h' => Nat.le_trans h h'⟩

/-- Embedding of `timeseriesData` (App.tsx lines 159-193): filter to the
selected team's matches when a team is selected, map each match to an xG
point, and stably sort ascending by date. -/
def timeseriesData (selectedTeam : String) (data : List MatchData) : List XgPoint :=
  let filtered :=
    if selectedTeam ≠ "" then
      data.filter (fun d => d.Home = selectedTeam ∨ d.Away = selectedTeam)
    else data
  (filtered.map (xgPoint selectedTeam)).insertionSort xgOrder

/-- Output record of the PPG computation (App.tsx lines 59-69). -/
structure PPGDataPoint where
  date : String
  ppg : ℚ
  points : Nat
  matchCount : Nat
  opponent : String
  venue : String
  result : String
  score : String
  team : String
  deriving DecidableEq, Repr

/-- Points earned by `team` in match `m` (App.tsx lines 299-310): 3 for a
win and 1 for a draw relative to the team's role, 0 otherwise. -/
def matchPointsFor (team : String) (m : MatchData) : Nat :=
  let p := parseScore m.Score
  if m.Home = team then
    if p.homeGoals > p.awayGoals then 3
    else if p.homeGoals = p.awayGoals then 1
    else 0
  else
    if p.awayGoals > p.homeGoals then 3
    else if p.homeGoals = p.awayGoals then 1
    else 0

/-- The running-total loop of the PPG computation (App.tsx lines 294-328):
`pts` and `n` are the cumulative points and matches played so far; each
match extends them and emits one data point. -/
def ppgFold (team : String) : Nat → Nat → List MatchData → List PPGDataPoint
  | _, _, [] => []
  | pts, n, m :: rest =>
    let mp := matchPointsFor team m
    let pts' := pts + mp
    let n' := n + 1
    { date := m.Date
      ppg := (pts' : ℚ) / (n' : ℚ)
      points := pts'
      matchCount := n'
      opponent := if m.Home = team then m.Away else m.Home
      venue := if m.Home = team then "Home" else "Away"
      result := if mp = 3 then "Win" else if mp = 1 then "Draw" else "Loss"
      score := m.Score
      team := team } :: ppgFold team pts' n' rest

/-- Chronological order on raw matches, as compared by the sort comparators
of App.tsx lines 289 and 339. -/
def matchOrder (a b : MatchData) : Prop :=
  dateKey a.Date ≤ dateKey b.Date

instance : DecidableRel matchOrder := fun a b =>
  inferInstanceAs (Decidable (dateKey a.Date ≤ dateKey b.Date))

instance : IsTotal MatchData matchOrder :=
  ⟨fun a b => Nat.le_total (dateKey a.Date) (dateKey b.Date)⟩

instance : IsTrans MatchData matchOrder :=
  ⟨fun _ _ _ h h' => Nat.le_trans h h'⟩

/-- One team's PPG series (App.tsx lines 287-328 for the primary team and
337-378 for the comparison team, which run the identical computation):
filter to the team's fixtures, stably sort ascending by date, and run the
running-total loop from zero. -/
def teamSeries (team : String) (data : List MatchData) : List PPGDataPoint :=
  ppgFold team 0 0
    ((data.filter (fun m => m.Home = team ∨ m.Away = team)).insertionSort matchOrder)

/-- Output record of `ppgTimeseriesData` (App.tsx lines 72-75). -/
structure PPGTimeseriesData where
  primaryTeam : List PPGDataPoint
  compareTeam : List PPGDataPoint
  deriving DecidableEq, Repr

/-- Embedding of `ppgTimeseriesData` (App.tsx lines 280-394): with no
selected team both series are empty; otherwise the primary series is always
computed and the comparison series only when a comparison team is set. -/
def ppgTimeseriesData (data : List MatchData) (selectedTeam compareTeam : String) :
    PPGTimeseriesData :=
  if selectedTeam = "" then { primaryTeam := [], compareTeam := [] }
  else
    { primaryTeam := teamSeries selectedTeam data
      compareTeam := if compareTeam = "" then [] else teamSeries compareTeam data }

/-- Total goals scored in the dataset, as the summary card computes it
(App.tsx lines 1143-1146): the sum over matches of parsed home plus parsed
away goals. -/
def totalGoals (data : List MatchData) : Int :=
  data.foldl
    (fun sum m =>
      let p := parseScore m.Score
      sum + p.homeGoals + p.awayGoals)
    0

/-- Stats-map entry of a team, defaulting to the zero record for a team
that never appears. -/
def lookupStat (data : List MatchData) (team : String) : TeamStat :=
  match (statsByTeam data).lookup team with
  | some s => s
  | none => ⟨0, 0⟩

/-- Matches played by a team across both roles, read off the stats map. -/
def matchesPlayed (data : List MatchData) (team : String) : Nat :=
  (lookupStat data team).matchCount

/-- Goals accumulated by a team across both roles, read off the stats map. -/
def goalsScored (data : List MatchData) (team : String) : Int :=
  (lookupStat data team).goals

/-- Sum over all teams of goalsPerMatch weighted by the team's match count,
the quantity the algebraic claim about `teamGoals` is about. -/
def gpmWeightedSum (data : List MatchData) : ℚ :=
  ((teamGoals data).map
    (fun r => r.goalsPerMatch * (matchesPlayed data r.team : ℚ))).sum

/-- Points earned by a team in one match as the spec states it (spec §4.6):
win = 3, draw = 1, loss = 0, relative to that team's role. -/
def specMatchPoints (team : String) (m : MatchData) : Nat :=
  let p := parseScore m.Score
  let forGoals := if m.Home = team then p.homeGoals else p.awayGoals
  let againstGoals := if m.Home = team then p.awayGoals else p.homeGoals
  if forGoals > againstGoals then 3
  else if forGoals = againstGoals then 1
  else 0

/-- Points-per-game series exactly as the spec words it (spec §4.6): filter
matches to the team's fixtures, sort ascending by date, then left fold,
adding the match points to a running total, incrementing a running match
count, and emitting runningPoints / runningMatchCount after each match. -/
def ppgSpecSeries (data : List MatchData) (team : String) : List ℚ :=
  let fixtures :=
    (data.filter (fun m => m.Home = team ∨ m.Away = team)).insertionSort matchOrder
  (fixtures.foldl
    (fun (acc : Nat × Nat × List ℚ) m =>
      let pts := acc.1 + specMatchPoints team m
      let n := acc.2.1 + 1
      (pts, n, acc.2.2 ++ [(pts : ℚ) / (n : ℚ)]))
    (0, 0, [])).2.2

/-- Sum of the goals accumulated over all entries of a stats map. -/
def sumGoals (m : List (String × TeamStat)) : Int :=
  (m.map (fun e => e.2.goals)).sum

/-- Keys (team names) of a stats map, in entry order. -/
def keysOf (m : List (String × TeamStat)) : List String :=
  m.map Prod.fst

/-- Parsed home plus away goals of one match. -/
def matchGoalSum (m : MatchData) : Int :=
  (parseScore m.Score).homeGoals + (parseScore m.Score).awayGoals

/-- Fixture for the xG reorientation check of spec §8: home team "A", away
team "B", expectedGoalsHome = 1.5, expectedGoalsAway = 0.8. -/
def fixtureAB : MatchData :=
  { Wk := 1, Day := "Sat", Date := "2024-08-17", Time := "15:00"
    Home := "A", xG := 3/2, Score := "1–1", xG_away := 4/5, Away := "B"
    Attendance := "10,000", Venue := "V", Referee := "R" }

/-- Single-match dataset used to separate the sum of goals-per-match
weighted by matches from twice the total goals: one 1–0 match. -/
def fixtureOneNil : MatchData :=
  { Wk := 1, Day := "Fri", Date := "2024-08-16", Time := "20:00"
    Home := "H", xG := 1, Score := "1–0", xG_away := 1/2, Away := "A"
    Attendance := "10,000", Venue := "V", Referee := "R" }

/-- First match of the three-match fixture of spec §8: team "A" wins 2–0 at
home. -/
def fixtureWin : MatchData :=
  { Wk := 1, Day := "Fri", Date := "2024-08-16", Time := "20:00"
    Home := "A", xG := 2, Score := "2–0", xG_away := 1/2, Away := "B"
    Attendance := "10,000", Venue := "V", Referee := "R" }

/-- Second match of the three-match fixture of spec §8: team "A" draws 1–1
away. -/
def fixtureDraw : MatchData :=
  { Wk := 2, Day := "Sat", Date := "2024-08-17", Time := "15:00"
    Home := "C", xG := 1, Score := "1–1", xG_away := 1, Away := "A"
    Attendance := "10,000", Venue := "V", Referee := "R" }

/-- Third match of the three-match fixture of spec §8: team "A" loses 0–1 at
home. -/
def fixtureLoss : MatchData :=
  { Wk := 3, Day := "Sun", Date := "2024-08-18", Time := "15:00"
    Home := "A", xG := 1/2, Score := "0–1", xG_away := 2, Away := "D"
    Attendance := "10,000", Venue := "V", Referee := "R" }

/-- Three-match fixture of spec §8 for team "A": a win, then a draw, then a
loss, in chronological order. -/
def ppgFixture : List MatchData :=
  [fixtureWin, fixtureDraw, fixtureLoss]

/-! Lemmas about the aggregation pipeline, followed by the claim theorems. -/

lemma foldl_tally_sum :
    ∀ (data : List MatchData) (acc : Nat × Nat × Nat),
      (data.foldl tallyOutcome acc).1 + (data.foldl tallyOutcome acc).2.1
          + (data.foldl tallyOutcome acc).2.2
        = acc.1 + acc.2.1 + acc.2.2 + data.length := by
  intro data
  induction data with
  | nil => intro acc; simp
  | cons m rest ih =>
    intro acc
    rw [List.foldl_cons, ih]
    simp only [tallyOutcome]
    split_ifs <;> simp <;> omega

/-- C10: with no selected team (the empty string), the PPG computation
returns both series empty, whatever the data and the comparison team. -/
theorem ppg_empty_selected_team (data : List MatchData) (c : String) :
    ppgTimeseriesData data "" c = { primaryTeam := [], compareTeam := [] } := by
  simp [ppgTimeseriesData]

/-- C2 (evaluation at the failing input): on the empty match sequence the
outcome classifier's total is 0 and each of the three percentages is the
non-finite JavaScript value NaN, modelled as `none` — there is no defined
all-zero fallback. -/
theorem matchOutcomes_empty_percentages_nan :
    (matchOutcomes ([] : List MatchData)).percentages = [none, none, none]
    ∧ (matchOutcomes ([] : List MatchData)).total = 0 :=
  ⟨rfl, rfl⟩

/-- C5: homeWins + awayWins + draws equals the total field, which equals
the input length; on the empty sequence all three counts and the total are
zero. -/
theorem outcome_counts_sum_total_length (data : List MatchData) :
    (outcomeCounts data).1 + (outcomeCounts data).2.1 + (outcomeCounts data).2.2
        = (matchOutcomes data).total
    ∧ (matchOutcomes data).total = data.length
    ∧ (matchOutcomes ([] : List MatchData)).counts = [0, 0, 0]
    ∧ (matchOutcomes ([] : List MatchData)).total = 0 := by
  refine ⟨rfl, ?_, rfl, rfl⟩
  show (outcomeCounts data).1 + (outcomeCounts data).2.1 + (outcomeCounts data).2.2
      = data.length
  rw [outcomeCounts, foldl_tally_sum]
  simp

/-- C7: the score parser is a total function: a missing or unparseable
segment yields 0 for that side, "2–1" parses to (2, 1), and the empty
string, "abc–def" and "3" each give 0 on every missing or unparseable
side (the away side of "3" is missing, its home side parses to 3). -/
theorem parseScore_total_fallback (s : String) :
    ((splitOnChar '–' s.data)[0]?.bind jsParseIntChars = none →
      (parseScore s).homeGoals = 0)
    ∧ ((splitOnChar '–' s.data)[1]?.bind jsParseIntChars = none →
      (parseScore s).awayGoals = 0)
    ∧ parseScore "2–1" = ⟨2, 1⟩
    ∧ parseScore "" = ⟨0, 0⟩
    ∧ parseScore "abc–def" = ⟨0, 0⟩
    ∧ parseScore "3" = ⟨3, 0⟩ := by
  refine ⟨?_, ?_, by decide, by decide, by decide, by decide⟩
  · intro h
    simp [parseScore, jsOrZero, h]
  · intro h
    simp [parseScore, jsOrZero, h]

/-- Witness for C7: on "abc–def" both segments fail integer parsing and
both sides of the parsed score are 0. -/
theorem parseScore_total_fallback_witness :
    ((splitOnChar '–' "abc–def".data)[0]?.bind jsParseIntChars = none
      ∧ (parseScore "abc–def").homeGoals = 0)
    ∧ ((splitOnChar '–' "abc–def".data)[1]?.bind jsParseIntChars = none
      ∧ (parseScore "abc–def").awayGoals = 0) :=
  ⟨⟨by decide, (parseScore_total_fallback "abc–def").1 (by decide)⟩,
   ⟨by decide, (parseScore_total_fallback "abc–def").2.1 (by decide)⟩⟩

/-- C3: for a match in which the selected team is the away side, the
emitted xG point has xGFor equal to the match's away expected goals, xGA
equal to its home expected goals, and the home team as opponent; such a
point is emitted for every such match in the dataset. -/
theorem xg_away_role_swap (t : String) (d : MatchData) (data : List MatchData)
    (ht : t ≠ "") (ha : d.Away = t) (hh : d.Home ≠ t) :
    xgPoint t d =
      { date := d.Date, xG := d.xG_away, xGA := d.xG, team := t
        matchLabel := d.Home ++ " vs " ++ d.Away, opponent := d.Home }
    ∧ (d ∈ data → xgPoint t d ∈ timeseriesData t data) := by
  constructor
  · simp [xgPoint, hh, ha, ht]
  · intro hd
    simp only [timeseriesData, if_pos ht, List.mem_insertionSort, List.mem_map]
    exact ⟨d, List.mem_filter.mpr ⟨hd, by simp [ha]⟩, rfl⟩

/-- Witness for C3: the concrete fixture home="A", away="B",
expectedGoalsHome = 1.5, expectedGoalsAway = 0.8 with selected team "B"
emits the point with xGFor = 0.8, xGAgainst = 1.5 and opponent "A". -/
theorem xg_away_role_swap_witness :
    (("B" : String) ≠ "" ∧ fixtureAB.Away = "B" ∧ fixtureAB.Home ≠ "B")
    ∧ xgPoint "B" fixtureAB =
      { date := "2024-08-17", xG := 4/5, xGA := 3/2, team := "B"
        matchLabel := "A vs B", opponent := "A" }
    ∧ xgPoint "B" fixtureAB ∈ timeseriesData "B" [fixtureAB] := by
  have h := xg_away_role_swap "B" fixtureAB [fixtureAB]
    (by decide) (by decide) (by decide)
  exact ⟨⟨by decide, by decide, by decide⟩, h.1, h.2 (by simp)⟩

lemma matchPointsFor_le_three (team : String) (m : MatchData) :
    matchPointsFor team m ≤ 3 := by
  simp only [matchPointsFor]
  split_ifs <;> omega

lemma ppgFold_invariants (team : String) :
    ∀ (l : List MatchData) (pts n : Nat), pts ≤ 3 * n →
      List.Chain' (fun a b : PPGDataPoint => a.points ≤ b.points) (ppgFold team pts n l)
      ∧ (ppgFold team pts n l).Forall (fun p => 0 ≤ p.ppg ∧ p.ppg ≤ 3)
      ∧ ∀ p ∈ ppgFold team pts n l, pts ≤ p.points := by
  intro l
  induction l with
  | nil => intro pts n _; simp [ppgFold]
  | cons m rest ih =>
    intro pts n hinv
    have hmp : matchPointsFor team m ≤ 3 := matchPointsFor_le_three team m
    have hinv' : pts + matchPointsFor team m ≤ 3 * (n + 1) := by omega
    obtain ⟨ihc, ihf, ihm⟩ := ih (pts + matchPointsFor team m) (n + 1) hinv'
    simp only [ppgFold]
    refine ⟨?_, ?_, ?_⟩
    · refine List.chain'_cons'.mpr ⟨?_, ihc⟩
      intro q hq
      exact ihm q (List.mem_of_mem_head? hq)
    · rw [List.forall_cons]
      refine ⟨⟨?_, ?_⟩, ihf⟩
      · show (0 : ℚ) ≤ ((pts + matchPointsFor team m : Nat) : ℚ) / ((n + 1 : Nat) : ℚ)
        positivity
      · show ((pts + matchPointsFor team m : Nat) : ℚ) / ((n + 1 : Nat) : ℚ) ≤ 3
        rw [div_le_iff₀ (by positivity)]
        exact_mod_cast hinv'
    · intro p hp
      rcases List.mem_cons.mp hp with h | h
      · subst h
        show pts ≤ pts + matchPointsFor team m
        exact Nat.le_add_right _ _
      · exact le_trans (Nat.le_add_right _ _) (ihm p h)

/-- C6: the PPG tracker's emitted series (both the primary and the
comparison series) has non-decreasing cumulative points, and every emitted
points-per-game value lies in the closed interval [0, 3]. -/
theorem ppg_points_monotone_ppg_bounded (data : List MatchData) (t c : String) :
    List.Chain' (fun a b : PPGDataPoint => a.points ≤ b.points)
        (ppgTimeseriesData data t c).primaryTeam
    ∧ (ppgTimeseriesData data t c).primaryTeam.Forall (fun p => 0 ≤ p.ppg ∧ p.ppg ≤ 3)
    ∧ List.Chain' (fun a b : PPGDataPoint => a.points ≤ b.points)
        (ppgTimeseriesData data t c).compareTeam
    ∧ (ppgTimeseriesData data t c).compareTeam.Forall (fun p => 0 ≤ p.ppg ∧ p.ppg ≤ 3) := by
  by_cases ht : t = ""
  · simp [ppgTimeseriesData, ht]
  · simp only [ppgTimeseriesData, if_neg ht]
    have h1 := ppgFold_invariants t
      ((data.filter (fun m => m.Home = t ∨ m.Away = t)).insertionSort matchOrder) 0 0
      (by omega)
    by_cases hc : c = ""
    · simp only [if_pos hc]
      exact ⟨h1.1, h1.2.1, by simp, by simp⟩
    · simp only [if_neg hc]
      have h2 := ppgFold_invariants c
        ((data.filter (fun m => m.Home = c ∨ m.Away = c)).insertionSort matchOrder) 0 0
        (by omega)
      exact ⟨h1.1, h1.2.1, h2.1, h2.2.1⟩

lemma specMatchPoints_eq_matchPointsFor (team : String) (m : MatchData) :
    specMatchPoints team m = matchPointsFor team m := by
  simp only [specMatchPoints, matchPointsFor]
  split_ifs <;> omega

lemma ppgSpec_foldl (team : String) :
    ∀ (l : List MatchData) (pts n : Nat) (acc : List ℚ),
      (l.foldl
        (fun (a : Nat × Nat × List ℚ) m =>
          let p := a.1 + specMatchPoints team m
          let k := a.2.1 + 1
          (p, k, a.2.2 ++ [(p : ℚ) / (k : ℚ)]))
        (pts, n, acc)).2.2
      = acc ++ (ppgFold team pts n l).map PPGDataPoint.ppg := by
  intro l
  induction l with
  | nil => intro pts n acc; simp [ppgFold]
  | cons m rest ih =>
    intro pts n acc
    rw [List.foldl_cons]
    show (List.foldl _
        (pts + specMatchPoints team m, n + 1,
          acc ++ [((pts + specMatchPoints team m : Nat) : ℚ) / ((n + 1 : Nat) : ℚ)])
        rest).2.2 = _
    rw [ih]
    simp [ppgFold, specMatchPoints_eq_matchPointsFor]

/-- C4: with a selected team, the primary PPG series is exactly the series
the spec describes — filter to the team's fixtures, sort ascending by date,
left fold awarding 3/1/0 points relative to the team's role, and emit
runningPoints / runningMatchCount after each match. -/
theorem ppg_primary_refines_spec (data : List MatchData) (t c : String)
    (ht : t ≠ "") :
    ((ppgTimeseriesData data t c).primaryTeam).map PPGDataPoint.ppg
      = ppgSpecSeries data t := by
  simp only [ppgTimeseriesData, if_neg ht]
  show (teamSeries t data).map PPGDataPoint.ppg = ppgSpecSeries data t
  rw [teamSeries, ppgSpecSeries, ppgSpec_foldl]
  simp

/-- Witness for C4: on the three-match fixture (win, draw, loss in
chronological order for team "A") the emitted points-per-game sequence is
[3, 2, 4/3]. -/
theorem ppg_primary_refines_spec_witness :
    (("A" : String) ≠ "")
    ∧ ((ppgTimeseriesData ppgFixture "A" "").primaryTeam).map PPGDataPoint.ppg
        = ppgSpecSeries ppgFixture "A"
    ∧ ((ppgTimeseriesData ppgFixture "A" "").primaryTeam).map PPGDataPoint.ppg
        = [3, 2, 4/3] := by
  refine ⟨by decide, ppg_primary_refines_spec ppgFixture "A" "" (by decide), ?_⟩
  have hfix : (ppgFixture.filter (fun m => m.Home = "A" ∨ m.Away = "A")) = ppgFixture := rfl
  have hs : List.Sorted matchOrder ppgFixture := by decide
  have h1 : ppgTimeseriesData ppgFixture "A" "" = ⟨teamSeries "A" ppgFixture, []⟩ := rfl
  have mp1 : matchPointsFor "A" fixtureWin = 3 := rfl
  have mp2 : matchPointsFor "A" fixtureDraw = 1 := rfl
  have mp3 : matchPointsFor "A" fixtureLoss = 0 := rfl
  rw [h1]
  show (teamSeries "A" ppgFixture).map PPGDataPoint.ppg = [3, 2, 4/3]
  rw [teamSeries, hfix, hs.insertionSort_eq]
  show (ppgFold "A" 0 0 [fixtureWin, fixtureDraw, fixtureLoss]).map PPGDataPoint.ppg
      = [3, 2, 4/3]
  simp only [ppgFold, mp1, mp2, mp3, List.map]
  norm_num

lemma filter_insertionSort_eq {α : Type} (r : α → α → Prop) [DecidableRel r]
    (p : α → Bool) (hmut : ∀ a b, p a = true → p b = true → r a b) (l : List α) :
    (l.insertionSort r).filter p = l.filter p := by
  have hpw : (l.filter p).Pairwise r :=
    List.pairwise_of_forall_mem_list (fun a ha b hb =>
      hmut a b (List.mem_filter.mp ha).2 (List.mem_filter.mp hb).2)
  have hsub : (l.filter p).Sublist (l.insertionSort r) :=
    List.sublist_insertionSort hpw (List.filter_sublist l)
  have hself : (l.filter p).filter p = l.filter p :=
    List.filter_eq_self.mpr (fun a ha => (List.mem_filter.mp ha).2)
  have h4 : (l.filter p).Sublist ((l.insertionSort r).filter p) := by
    have := hsub.filter p
    rwa [hself] at this
  have hlen : ((l.insertionSort r).filter p).length = (l.filter p).length :=
    ((List.perm_insertionSort r l).filter p).length_eq
  exact (h4.eq_of_length hlen.symm).symm

/-- C8: with no selected team the xG time-series builder emits one point
per match (a permutation of the per-match mapping, with no filtering), each
point takes the home side's perspective, the output is sorted ascending by
the date key, and the sort is stable: the points carrying any fixed date
string appear in input order. -/
theorem xg_unselected_home_perspective_sorted (data : List MatchData) :
    (timeseriesData "" data).Perm (data.map (xgPoint ""))
    ∧ (∀ d : MatchData, xgPoint "" d =
        { date := d.Date, xG := d.xG, xGA := d.xG_away, team := d.Home
          matchLabel := d.Home ++ " vs " ++ d.Away, opponent := d.Away })
    ∧ List.Sorted xgOrder (timeseriesData "" data)
    ∧ ∀ s : String,
        (timeseriesData "" data).filter (fun pt => pt.date = s)
          = (data.map (xgPoint "")).filter (fun pt => pt.date = s) := by
  have hun : timeseriesData "" data = (data.map (xgPoint "")).insertionSort xgOrder := by
    simp [timeseriesData]
  refine ⟨?_, ?_, ?_, ?_⟩
  · rw [hun]
    exact List.perm_insertionSort _ _
  · intro d
    simp [xgPoint]
  · rw [hun]
    exact List.sorted_insertionSort _ _
  · intro s
    rw [hun]
    refine filter_insertionSort_eq xgOrder _ ?_ _
    intro a b ha hb
    have ha' : a.date = s := by simpa using ha
    have hb' : b.date = s := by simpa using hb
    show dateKey a.date ≤ dateKey b.date
    rw [ha', hb']

lemma updateStat_sumGoals (m : List (String × TeamStat)) (t : String) (g : Int) :
    sumGoals (updateStat m t g) = sumGoals m + g := by
  induction m with
  | nil => simp [updateStat, sumGoals]
  | cons e rest ih =>
    obtain ⟨t', s'⟩ := e
    simp only [updateStat]
    split_ifs with h
    · simp [sumGoals]
      ring
    · simp only [sumGoals, List.map_cons, List.sum_cons] at ih ⊢
      rw [ih]
      ring

lemma updateStat_keys (m : List (String × TeamStat)) (t : String) (g : Int) :
    keysOf (updateStat m t g) =
      if t ∈ keysOf m then keysOf m else keysOf m ++ [t] := by
  induction m with
  | nil => simp [updateStat, keysOf]
  | cons e rest ih =>
    obtain ⟨t', s'⟩ := e
    by_cases h : t' = t
    · subst h
      have hmem : t' ∈ keysOf ((t', s') :: rest) := by simp [keysOf]
      rw [if_pos hmem]
      simp [updateStat, keysOf]
    · have hstep : updateStat ((t', s') :: rest) t g = (t', s') :: updateStat rest t g := by
        simp [updateStat, h]
      have hkeys : keysOf ((t', s') :: updateStat rest t g)
          = t' :: keysOf (updateStat rest t g) := rfl
      rw [hstep, hkeys, ih]
      have hne : t ≠ t' := fun hc => h hc.symm
      by_cases hmem : t ∈ keysOf rest
      · have hm2 : t ∈ keysOf ((t', s') :: rest) := by
          show t ∈ t' :: keysOf rest
          exact List.mem_cons_of_mem _ hmem
        rw [if_pos hmem, if_pos hm2]
        rfl
      · have hm2 : t ∉ keysOf ((t', s') :: rest) := by
          show t ∉ t' :: keysOf rest
          simp [hne, hmem]
        rw [if_neg hmem, if_neg hm2]
        rfl

lemma updateStat_mem_keys (m : List (String × TeamStat)) (t u : String) (g : Int) :
    u ∈ keysOf (updateStat m t g) ↔ u ∈ keysOf m ∨ u = t := by
  rw [updateStat_keys]
  split_ifs with h
  · constructor
    · exact Or.inl
    · rintro (h1 | h1)
      · exact h1
      · rwa [h1]
  · simp

lemma updateStat_keys_nodup (m : List (String × TeamStat)) (t : String) (g : Int)
    (h : (keysOf m).Nodup) : (keysOf (updateStat m t g)).Nodup := by
  rw [updateStat_keys]
  split_ifs with hmem
  · exact h
  · simp [List.nodup_append, h, hmem]

lemma updateStat_pos (m : List (String × TeamStat)) (t : String) (g : Int)
    (h : ∀ e ∈ m, 0 < e.2.matchCount) :
    ∀ e ∈ updateStat m t g, 0 < e.2.matchCount := by
  induction m with
  | nil =>
    intro e he
    simp only [updateStat, List.mem_singleton] at he
    subst he
    simp
  | cons e0 rest ih =>
    obtain ⟨t', s'⟩ := e0
    intro e he
    simp only [updateStat] at he
    split_ifs at he with hcond
    · rcases List.mem_cons.mp he with h1 | h1
      · subst h1
        simp
      · exact h e (List.mem_cons_of_mem _ h1)
    · rcases List.mem_cons.mp he with h1 | h1
      · subst h1
        exact h (t', s') (List.mem_cons_self _ _)
      · exact ih (fun e' he' => h e' (List.mem_cons_of_mem _ he')) e h1

lemma lookup_eq_of_mem_of_nodup :
    ∀ (m : List (String × TeamStat)), (keysOf m).Nodup →
      ∀ e ∈ m, m.lookup e.1 = some e.2 := by
  intro m
  induction m with
  | nil => intro _ e he; exact absurd he (List.not_mem_nil e)
  | cons e0 rest ih =>
    obtain ⟨t', s'⟩ := e0
    intro hnd e he
    have hnd' : (keysOf rest).Nodup := by
      simpa [keysOf] using hnd.of_cons
    rcases List.mem_cons.mp he with h1 | h1
    · subst h1
      simp [List.lookup]
    · have hne : e.1 ≠ t' := by
        intro hcontra
        have ht'mem : t' ∈ keysOf rest := by
          rw [← hcontra]
          exact List.mem_map_of_mem Prod.fst h1
        have hnd2 : (t' :: keysOf rest).Nodup := hnd
        exact (List.nodup_cons.mp hnd2).1 ht'mem
      rw [List.lookup]
      have : (e.1 == t') = false := beq_eq_false_iff_ne.mpr hne
      rw [this]
      exact ih hnd' e h1

lemma statsStep_sumGoals (acc : List (String × TeamStat)) (m : MatchData) :
    sumGoals (statsStep acc m) = sumGoals acc + matchGoalSum m := by
  simp only [statsStep, matchGoalSum]
  rw [updateStat_sumGoals, updateStat_sumGoals]
  ring

lemma statsFold_sumGoals (data : List MatchData) :
    ∀ acc, sumGoals (List.foldl statsStep acc data)
      = sumGoals acc + (data.map matchGoalSum).sum := by
  induction data with
  | nil => intro acc; simp
  | cons m rest ih =>
    intro acc
    rw [List.foldl_cons, ih, statsStep_sumGoals]
    simp [add_assoc]

lemma statsFold_pos (data : List MatchData) :
    ∀ acc, (∀ e ∈ acc, 0 < e.2.matchCount) →
      ∀ e ∈ List.foldl statsStep acc data, 0 < e.2.matchCount := by
  induction data with
  | nil => intro acc h; exact h
  | cons m rest ih =>
    intro acc h
    rw [List.foldl_cons]
    refine ih _ ?_
    exact updateStat_pos _ _ _ (updateStat_pos _ _ _ h)

lemma statsFold_nodup (data : List MatchData) :
    ∀ acc, (keysOf acc).Nodup →
      (keysOf (List.foldl statsStep acc data)).Nodup := by
  induction data with
  | nil => intro acc h; exact h
  | cons m rest ih =>
    intro acc h
    rw [List.foldl_cons]
    exact ih _ (updateStat_keys_nodup _ _ _ (updateStat_keys_nodup _ _ _ h))

lemma statsFold_mem_keys (data : List MatchData) :
    ∀ acc t, t ∈ keysOf (List.foldl statsStep acc data)
      ↔ t ∈ keysOf acc ∨ ∃ m, m ∈ data ∧ (m.Home = t ∨ m.Away = t) := by
  induction data with
  | nil => intro acc t; simp
  | cons m rest ih =>
    intro acc t
    rw [List.foldl_cons, ih]
    simp only [statsStep, updateStat_mem_keys]
    constructor
    · rintro (((h1 | h1) | h1) | h1)
      · exact Or.inl h1
      · exact Or.inr ⟨m, List.mem_cons_self _ _, Or.inl h1.symm⟩
      · exact Or.inr ⟨m, List.mem_cons_self _ _, Or.inr h1.symm⟩
      · obtain ⟨m', hm', hrole⟩ := h1
        exact Or.inr ⟨m', List.mem_cons_of_mem _ hm', hrole⟩
    · rintro (h1 | ⟨m', hm', hrole⟩)
      · exact Or.inl (Or.inl (Or.inl h1))
      · rcases List.mem_cons.mp hm' with hm1 | hm1
        · subst hm1
          rcases hrole with hr | hr
          · exact Or.inl (Or.inl (Or.inr hr.symm))
          · exact Or.inl (Or.inr hr.symm)
        · exact Or.inr ⟨m', hm1, hrole⟩

lemma totalGoals_eq_sum (data : List MatchData) :
    totalGoals data = (data.map matchGoalSum).sum := by
  have aux : ∀ (l : List MatchData) (s : Int),
      List.foldl
        (fun sum m =>
          let p := parseScore m.Score
          sum + p.homeGoals + p.awayGoals) s l
        = s + (l.map matchGoalSum).sum := by
    intro l
    induction l with
    | nil => intro s; simp
    | cons m rest ih =>
      intro s
      rw [List.foldl_cons, ih]
      simp only [matchGoalSum, List.map_cons, List.sum_cons]
      ring
  rw [totalGoals, aux]
  simp

lemma statsByTeam_sumGoals (data : List MatchData) :
    sumGoals (statsByTeam data) = totalGoals data := by
  rw [statsByTeam, statsFold_sumGoals, totalGoals_eq_sum]
  simp [sumGoals]

lemma statsByTeam_pos (data : List MatchData) :
    ∀ e ∈ statsByTeam data, 0 < e.2.matchCount :=
  statsFold_pos data [] (by simp)

lemma statsByTeam_nodup (data : List MatchData) :
    (keysOf (statsByTeam data)).Nodup :=
  statsFold_nodup data [] (by simp [keysOf])

lemma statsByTeam_lookup (data : List MatchData) :
    ∀ e ∈ statsByTeam data, (statsByTeam data).lookup e.1 = some e.2 :=
  lookup_eq_of_mem_of_nodup _ (statsByTeam_nodup data)

lemma statsByTeam_filter (data : List MatchData) :
    (statsByTeam data).filter (fun e => 0 < e.2.matchCount) = statsByTeam data :=
  List.filter_eq_self.mpr (fun e he => by
    simpa using statsByTeam_pos data e he)

lemma statsByTeam_mem_keys (data : List MatchData) (t : String) :
    t ∈ keysOf (statsByTeam data)
      ↔ ∃ m, m ∈ data ∧ (m.Home = t ∨ m.Away = t) := by
  rw [statsByTeam, statsFold_mem_keys]
  simp [keysOf]

/-- C1 (counterexample to the claim as stated): on a single 1–0 match the
sum over teams of goalsPerMatch times matchesPlayed is 1, the total goals
scored, not twice the total goals (which would be 2). -/
theorem gpm_weighted_sum_ne_twice_total_goals :
    gpmWeightedSum [fixtureOneNil] ≠ 2 * (totalGoals [fixtureOneNil] : ℚ) := by
  have h0 : ((statsByTeam [fixtureOneNil]).filter (fun e => 0 < e.2.matchCount)).map toRate
      = [⟨"H", (1:ℚ)/1⟩, ⟨"A", (0:ℚ)/1⟩] := rfl
  have hs : List.Sorted gpmOrder [⟨"H", (1:ℚ)/1⟩, ⟨"A", (0:ℚ)/1⟩] := by
    norm_num [List.sorted_cons, gpmOrder]
  have hH : matchesPlayed [fixtureOneNil] "H" = 1 := rfl
  have hA : matchesPlayed [fixtureOneNil] "A" = 1 := rfl
  have ht : totalGoals [fixtureOneNil] = 1 := rfl
  rw [gpmWeightedSum, teamGoals, h0, hs.insertionSort_eq, ht]
  norm_num [hH, hA]

/-- C1 (amended): the sum over all teams of goalsPerMatch times that team's
matchesPlayed equals the total goals scored in the dataset once, not twice:
each goal is credited to exactly one team. -/
theorem gpm_weighted_sum_eq_total_goals (data : List MatchData) :
    gpmWeightedSum data = (totalGoals data : ℚ) := by
  have hperm : (teamGoals data).Perm ((statsByTeam data).map toRate) := by
    rw [teamGoals, statsByTeam_filter]
    exact List.perm_insertionSort _ _
  have hsum := (hperm.map (fun r => r.goalsPerMatch * (matchesPlayed data r.team : ℚ))).sum_eq
  rw [gpmWeightedSum, hsum, List.map_map]
  have hpt : ∀ e ∈ statsByTeam data,
      ((fun r => r.goalsPerMatch * (matchesPlayed data r.team : ℚ)) ∘ toRate) e
        = ((e.2.goals : Int) : ℚ) := by
    intro e he
    have hl := statsByTeam_lookup data e he
    have hm : matchesPlayed data e.1 = e.2.matchCount := by
      simp [matchesPlayed, lookupStat, hl]
    have hpos : (e.2.matchCount : ℚ) ≠ 0 := by
      have h1 := statsByTeam_pos data e he
      exact_mod_cast Nat.pos_iff_ne_zero.mp h1
    show (toRate e).goalsPerMatch * (matchesPlayed data (toRate e).team : ℚ)
        = ((e.2.goals : Int) : ℚ)
    have hteam : (toRate e).team = e.1 := rfl
    rw [hteam, hm]
    show ((e.2.goals : Int) : ℚ) / (e.2.matchCount : ℚ) * (e.2.matchCount : ℚ)
        = ((e.2.goals : Int) : ℚ)
    exact div_mul_cancel₀ _ hpos
  rw [List.map_congr_left hpt]
  have hcast : ∀ l : List (String × TeamStat),
      (l.map (fun e => ((e.2.goals : Int) : ℚ))).sum = ((sumGoals l : Int) : ℚ) := by
    intro l
    induction l with
    | nil => simp [sumGoals]
    | cons e rest ih =>
      simp only [sumGoals, List.map_cons, List.sum_cons] at ih ⊢
      rw [ih]
      push_cast
      ring
  rw [hcast, statsByTeam_sumGoals]

/-- C9: the team goal-rate aggregation has one entry per team appearing in
at least one match, each entry's rate is that team's accumulated goals over
its match count, the output is sorted descending by rate, and ties keep the
pre-sort (first-encounter) entry order: filtering the output to any fixed
rate gives exactly the corresponding slice of the stats map in entry
order. -/
theorem teamGoals_entries_rate_sorted_stable (data : List MatchData) :
    ((teamGoals data).map TeamGoalRate.team).Nodup
    ∧ (∀ t : String, (∃ r, r ∈ teamGoals data ∧ r.team = t)
        ↔ ∃ m, m ∈ data ∧ (m.Home = t ∨ m.Away = t))
    ∧ (teamGoals data).Forall (fun r =>
        r.goalsPerMatch = ((goalsScored data r.team : Int) : ℚ) / (matchesPlayed data r.team : ℚ))
    ∧ (teamGoals data).Pairwise (fun a b => b.goalsPerMatch ≤ a.goalsPerMatch)
    ∧ ∀ q : ℚ, (teamGoals data).filter (fun r => r.goalsPerMatch = q)
        = ((statsByTeam data).map toRate).filter (fun r => r.goalsPerMatch = q) := by
  have hperm : (teamGoals data).Perm ((statsByTeam data).map toRate) := by
    rw [teamGoals, statsByTeam_filter]
    exact List.perm_insertionSort _ _
  have hproj : ((statsByTeam data).map toRate).map TeamGoalRate.team
      = keysOf (statsByTeam data) := by
    rw [List.map_map]
    exact List.map_congr_left (fun e _ => rfl)
  refine ⟨?_, ?_, ?_, ?_, ?_⟩
  · refine (hperm.map TeamGoalRate.team).nodup_iff.mpr ?_
    rw [hproj]
    exact statsByTeam_nodup data
  · intro t
    have h1 : (∃ r, r ∈ teamGoals data ∧ r.team = t)
        ↔ t ∈ (teamGoals data).map TeamGoalRate.team := by
      rw [List.mem_map]
    rw [h1, (hperm.map TeamGoalRate.team).mem_iff, hproj, statsByTeam_mem_keys]
  · rw [List.forall_iff_forall_mem]
    intro r hr
    have hr' : r ∈ ((statsByTeam data).map toRate) := hperm.mem_iff.mp hr
    obtain ⟨e, he, hre⟩ := List.mem_map.mp hr'
    subst hre
    have hl := statsByTeam_lookup data e he
    have hm : matchesPlayed data e.1 = e.2.matchCount := by
      simp [matchesPlayed, lookupStat, hl]
    have hg : goalsScored data e.1 = e.2.goals := by
      simp [goalsScored, lookupStat, hl]
    show (toRate e).goalsPerMatch
        = ((goalsScored data (toRate e).team : Int) : ℚ) / (matchesPlayed data (toRate e).team : ℚ)
    have hteam : (toRate e).team = e.1 := rfl
    rw [hteam, hm, hg]
    rfl
  · show List.Sorted gpmOrder (teamGoals data)
    rw [teamGoals]
    exact List.sorted_insertionSort _ _
  · intro q
    rw [teamGoals, statsByTeam_filter]
    refine filter_insertionSort_eq gpmOrder _ ?_ _
    intro a b ha hb
    have ha' : a.goalsPerMatch = q := by simpa using ha
    have hb' : b.goalsPerMatch = q := by simpa using hb
    show b.goalsPerMatch ≤ a.goalsPerMatch
    rw [ha', hb']
